import Mathlib

/-!
# Verification of the in-memory job store of `stroke-deepisles-demo`

Shallow embedding of `src/stroke_deepisles_demo/api/job_store.py` and the
admission check of `src/stroke_deepisles_demo/api/routes.py`.

Modelling conventions:
* timestamps (`datetime.now()`) are natural numbers (seconds); each mutating
  operation receives the instant `now` at which it runs;
* the job registry (a Python `dict[str, Job]`) is an association list; the
  store's API only ever inserts a key after checking it is absent, so keys
  are unique in every reachable registry, and lookup is first-match;
* the `result` payload (`dict[str, Any]`) is abstracted as an opaque value,
  carried as a `String`, since the store never inspects it;
* exceptions (`ValueError`, `KeyError`) become an `Except` error result, and
  the state effect of a raising call is "registry unchanged";
* the cleanup scheduler's `threading.Event` shutdown flag is a `Bool` field;
  the deletion of result files on disk during cleanup is outside the model
  (it never touches the registry).
-/

namespace StrokeDemo

/-- `JobStatus` enum of `job_store.py` (string values `pending` … `failed`). -/
inductive JobStatus where
  | pending
  | running
  | completed
  | failed
deriving DecidableEq, Repr

/-- Opaque stand-in for the `dict[str, Any]` result payload. -/
abbrev ResultData := String

/-- The `Job` dataclass of `job_store.py`, with `datetime` fields as `Nat`
seconds and the result payload abstracted. -/
structure Job where
  id : String
  status : JobStatus
  caseId : String
  fastMode : Bool
  createdAt : Nat
  startedAt : Option Nat := none
  completedAt : Option Nat := none
  progress : Int := 0
  progressMessage : String := "Queued"
  result : Option ResultData := none
  error : Option String := none
deriving DecidableEq, Repr

/-- `Job.elapsed_seconds`: `0` when not started, otherwise
`(completed_at or now) - started_at`. -/
def Job.elapsed_seconds (j : Job) (now : Nat) : Int :=
  match j.startedAt with
  | none => 0
  | some s => ((j.completedAt.getD now : Nat) : Int) - (s : Int)

/-- One character of the class `[a-zA-Z0-9_-]` of `_SAFE_JOB_ID_PATTERN`. -/
def isSafeIdChar (c : Char) : Bool :=
  c.isAlpha || c.isDigit || c == Char.ofNat 45 || c == Char.ofNat 95

/-- Python `re.match` of `^[a-zA-Z0-9_-]+$`.  In Python's `re`, the anchor
`$` matches at the end of the string *or just before a single newline at the
end of the string*, so the pattern also accepts `core ++ "\n"` for a
non-empty all-class `core`. -/
def safePatternMatch (s : String) : Bool :=
  let cs := s.data
  let core := if cs.getLast? == some (Char.ofNat 10) then cs.dropLast else cs
  !core.isEmpty && core.all isSafeIdChar

/-- `JobStore._is_safe_job_id`: `bool(job_id) and pattern.match(job_id)`. -/
def is_safe_job_id (job_id : String) : Bool :=
  !job_id.isEmpty && safePatternMatch job_id

/-- The `JobStore` state: registry, TTL (seconds, default one hour), the
shutdown `Event` flag, and whether a cleanup thread object exists. -/
structure JobStore where
  jobs : List (String × Job) := []
  ttl : Nat := 3600
  shutdown : Bool := false
  cleanupThread : Bool := false
deriving DecidableEq, Repr

/-- A freshly constructed store (`JobStore()` with the default TTL). -/
def emptyStore : JobStore := {}

/-- First-match lookup in the registry association list (Python `dict.get`). -/
def lookupJob (jobs : List (String × Job)) (job_id : String) : Option Job :=
  (jobs.find? (fun p => p.1 == job_id)).map Prod.snd

/-- In-place mutation of the entry with key `job_id` (Python mutates the
`Job` object aliased in the dict). -/
def updateJob (jobs : List (String × Job)) (job_id : String) (f : Job → Job) :
    List (String × Job) :=
  jobs.map (fun p => if p.1 == job_id then (p.1, f p.2) else p)

/-- `JobStore.get_job`. -/
def JobStore.get_job (s : JobStore) (job_id : String) : Option Job :=
  lookupJob s.jobs job_id

/-- `JobStore.get_active_job_count`: jobs with status PENDING or RUNNING. -/
def JobStore.get_active_job_count (s : JobStore) : Nat :=
  (s.jobs.filter (fun p =>
    p.2.status == JobStatus.pending || p.2.status == JobStatus.running)).length

/-- Errors `create_job` can raise. -/
inductive CreateError where
  | invalidJobId   -- ValueError
  | duplicateJobId -- KeyError
deriving DecidableEq, Repr

/-- The `Job(...)` record `create_job` builds: PENDING, `created_at = now`,
every other field at its dataclass default. -/
def newJob (now : Nat) (job_id case_id : String) (fast_mode : Bool) : Job :=
  { id := job_id, status := JobStatus.pending, caseId := case_id,
    fastMode := fast_mode, createdAt := now }

/-- `JobStore.create_job`: validates the id, rejects duplicates, otherwise
inserts a PENDING job with `created_at = now`. -/
def JobStore.create_job (s : JobStore) (now : Nat) (job_id case_id : String)
    (fast_mode : Bool) : Except CreateError (JobStore × Job) :=
  if !is_safe_job_id job_id then
    .error .invalidJobId
  else if (s.get_job job_id).isSome then
    .error .duplicateJobId
  else
    .ok ({ s with jobs := s.jobs ++ [(job_id, newJob now job_id case_id fast_mode)] },
         newJob now job_id case_id fast_mode)

/-- Field updates `start_job` performs on the fetched job. -/
def startUpdate (now : Nat) (j : Job) : Job :=
  { j with status := JobStatus.running, startedAt := some now,
           progress := 5, progressMessage := "Starting inference..." }

/-- `JobStore.start_job`: no-op when the id is unknown. -/
def JobStore.start_job (s : JobStore) (now : Nat) (job_id : String) : JobStore :=
  match s.get_job job_id with
  | none => s
  | some _ => { s with jobs := updateJob s.jobs job_id (startUpdate now) }

/-- Field updates `update_progress` performs: clamp into `[0, 100]`. -/
def progressUpdate (progress : Int) (message : String) (j : Job) : Job :=
  { j with progress := min (max progress 0) 100, progressMessage := message }

/-- `JobStore.update_progress`: no-op unless the job exists and is RUNNING. -/
def JobStore.update_progress (s : JobStore) (job_id : String) (progress : Int)
    (message : String) : JobStore :=
  match s.get_job job_id with
  | none => s
  | some j =>
    if j.status == JobStatus.running then
      { s with jobs := updateJob s.jobs job_id (progressUpdate progress message) }
    else s

/-- Field updates `complete_job` performs: back-fill `started_at`, set
COMPLETED, `completed_at = now`, progress 100, store the result. -/
def completeUpdate (now : Nat) (result : ResultData) (j : Job) : Job :=
  { j with startedAt := some (j.startedAt.getD now),
           status := JobStatus.completed, completedAt := some now,
           progress := 100, progressMessage := "Segmentation complete",
           result := some result }

/-- `JobStore.complete_job`: no-op when the id is unknown. -/
def JobStore.complete_job (s : JobStore) (now : Nat) (job_id : String)
    (result : ResultData) : JobStore :=
  match s.get_job job_id with
  | none => s
  | some _ => { s with jobs := updateJob s.jobs job_id (completeUpdate now result) }

/-- Field updates `fail_job` performs: back-fill `started_at`, set FAILED,
`completed_at = now`, store the error; `progress` is not touched. -/
def failUpdate (now : Nat) (error : String) (j : Job) : Job :=
  { j with startedAt := some (j.startedAt.getD now),
           status := JobStatus.failed, completedAt := some now,
           progressMessage := "Error occurred", error := some error }

/-- `JobStore.fail_job`: no-op when the id is unknown. -/
def JobStore.fail_job (s : JobStore) (now : Nat) (job_id : String)
    (error : String) : JobStore :=
  match s.get_job job_id with
  | none => s
  | some _ => { s with jobs := updateJob s.jobs job_id (failUpdate now error) }

/-- The expiry test of `cleanup_old_jobs`:
`job.completed_at and (now - job.completed_at) > self._ttl`
(the `timedelta` comparison is over the integers). -/
def expiredAt (ttl now : Nat) (j : Job) : Bool :=
  match j.completedAt with
  | none => false
  | some c => (now : Int) - (c : Int) > (ttl : Int)

/-- `JobStore.cleanup_old_jobs`: removes every expired job from the registry
and returns how many were removed.  (The on-disk result-file deletion happens
outside the registry and is not part of the state.) -/
def JobStore.cleanup_old_jobs (s : JobStore) (now : Nat) : JobStore × Nat :=
  let expired_ids := s.jobs.filter (fun p => expiredAt s.ttl now p.2)
  ({ s with jobs := s.jobs.filter (fun p => !expiredAt s.ttl now p.2) },
   expired_ids.length)

/-- `JobStore.start_cleanup_scheduler`: returns at once when a thread already
exists, otherwise records the spawned thread.  It never touches the shutdown
flag. -/
def JobStore.start_cleanup_scheduler (s : JobStore) : JobStore :=
  if s.cleanupThread then s else { s with cleanupThread := true }

/-- `JobStore.stop_cleanup_scheduler`: sets the shutdown `Event` (nothing in
the module ever calls `clear()`), joins and drops the thread object. -/
def JobStore.stop_cleanup_scheduler (s : JobStore) : JobStore :=
  { s with shutdown := true, cleanupThread := false }

/-- `len(store)`. -/
def JobStore.size (s : JobStore) : Nat := s.jobs.length

/-- Number of cleanup sweeps `cleanup_loop` performs within the first `ticks`
expirations of `self._shutdown.wait(CLEANUP_INTERVAL_SECONDS)`, when no
concurrent thread changes the flag: `wait` returns `true` immediately if the
flag is set, ending the `while not …` loop before any sweep. -/
def cleanupLoopSweeps (shutdown : Bool) (ticks : Nat) : Nat :=
  match ticks with
  | 0 => 0
  | Nat.succ t => if shutdown then 0 else 1 + cleanupLoopSweeps shutdown t

/-- One store operation, tagged with the instant at which it runs. -/
inductive Op where
  | create (now : Nat) (job_id case_id : String) (fast_mode : Bool)
  | start (now : Nat) (job_id : String)
  | update (job_id : String) (progress : Int) (message : String)
  | complete (now : Nat) (job_id : String) (result : ResultData)
  | fail (now : Nat) (job_id : String) (error : String)
  | cleanup (now : Nat)
  | startScheduler
  | stopScheduler
deriving DecidableEq, Repr

/-- State effect of one operation (a raising `create_job` leaves the
registry unchanged). -/
def applyOp (s : JobStore) (op : Op) : JobStore :=
  match op with
  | .create now jid cid fm =>
    match s.create_job now jid cid fm with
    | .ok (s2, _) => s2
    | .error _ => s
  | .start now jid => s.start_job now jid
  | .update jid p m => s.update_progress jid p m
  | .complete now jid r => s.complete_job now jid r
  | .fail now jid e => s.fail_job now jid e
  | .cleanup now => (s.cleanup_old_jobs now).1
  | .startScheduler => s.start_cleanup_scheduler
  | .stopScheduler => s.stop_cleanup_scheduler

/-- A sequence of operations, applied left to right. -/
def applyOps (s : JobStore) (ops : List Op) : JobStore :=
  ops.foldl applyOp s

/-! ## Basic lemmas about the registry association list -/

theorem lookupJob_updateJob_self (jobs : List (String × Job)) (k : String)
    (f : Job → Job) :
    lookupJob (updateJob jobs k f) k = (lookupJob jobs k).map f := by
  unfold lookupJob updateJob
  rw [List.find?_map]
  have hfst : ((fun p : String × Job => p.1 == k) ∘
      fun p : String × Job => if p.1 == k then (p.1, f p.2) else p) =
      fun p : String × Job => p.1 == k := by
    funext p
    by_cases h : p.1 = k <;> simp [h]
  rw [hfst]
  cases hq : List.find? (fun p : String × Job => p.1 == k) jobs with
  | none => rfl
  | some q =>
    have hk := List.find?_some hq
    have hk2 : q.1 = k := by simpa using hk
    simp [hk2]

theorem lookupJob_updateJob_ne (jobs : List (String × Job)) (k j0 : String)
    (f : Job → Job) (h : j0 ≠ k) :
    lookupJob (updateJob jobs k f) j0 = lookupJob jobs j0 := by
  unfold lookupJob updateJob
  rw [List.find?_map]
  have hfst : ((fun p : String × Job => p.1 == j0) ∘
      fun p : String × Job => if p.1 == k then (p.1, f p.2) else p) =
      fun p : String × Job => p.1 == j0 := by
    funext p
    by_cases hk : p.1 = k <;> simp [hk]
  rw [hfst]
  cases hq : List.find? (fun p : String × Job => p.1 == j0) jobs with
  | none => rfl
  | some q =>
    have hj0 := List.find?_some hq
    have hqj : q.1 = j0 := by simpa using hj0
    have hqk : ¬q.1 = k := by
      rw [hqj]
      exact h
    simp [hqk]

theorem lookupJob_append_ne (jobs : List (String × Job)) (k j0 : String)
    (j : Job) (h : j0 ≠ k) :
    lookupJob (jobs ++ [(k, j)]) j0 = lookupJob jobs j0 := by
  unfold lookupJob
  rw [List.find?_append]
  have hkj : (k == j0) = false := beq_eq_false_iff_ne.mpr (Ne.symm h)
  simp [List.find?, hkj]

theorem lookupJob_append_self (jobs : List (String × Job)) (k : String)
    (j : Job) (h : lookupJob jobs k = none) :
    lookupJob (jobs ++ [(k, j)]) k = some j := by
  unfold lookupJob at h ⊢
  rw [List.find?_append]
  have h0 : List.find? (fun p : String × Job => p.1 == k) jobs = none := by
    cases hq : List.find? (fun p : String × Job => p.1 == k) jobs with
    | none => rfl
    | some q => rw [hq] at h; simp at h
  rw [h0]
  simp [List.find?]

theorem mem_updateJob (jobs : List (String × Job)) (k : String) (f : Job → Job)
    (p : String × Job) (hp : p ∈ updateJob jobs k f) :
    ∃ q ∈ jobs, p = q ∨ (q.1 = k ∧ p = (q.1, f q.2)) := by
  obtain ⟨q, hq, hqe⟩ := List.mem_map.mp hp
  refine ⟨q, hq, ?_⟩
  by_cases hk : (q.1 == k) = true
  · right
    refine ⟨by simpa using hk, ?_⟩
    rw [← hqe, if_pos hk]
  · left
    rw [← hqe, if_neg hk]

theorem get_job_mem (s : JobStore) (jid : String) (j : Job)
    (h : s.get_job jid = some j) :
    ∃ p ∈ s.jobs, p.1 = jid ∧ p.2 = j := by
  obtain ⟨q, hq, hqj⟩ := Option.map_eq_some'.mp h
  exact ⟨q, List.mem_of_find?_eq_some hq,
    by simpa using List.find?_some hq, hqj⟩

theorem create_job_ok (s : JobStore) (now : Nat) (jid cid : String) (fm : Bool)
    (s2 : JobStore) (j : Job)
    (h : s.create_job now jid cid fm = .ok (s2, j)) :
    is_safe_job_id jid = true ∧ s.get_job jid = none
    ∧ j = newJob now jid cid fm
    ∧ s2 = { s with jobs := s.jobs ++ [(jid, j)] } := by
  unfold JobStore.create_job at h
  by_cases h1 : is_safe_job_id jid = true
  · rw [h1] at h
    by_cases h2 : (s.get_job jid).isSome = true
    · rw [h2] at h
      simp at h
    · have h2f : (s.get_job jid).isSome = false := by
        cases hh : (s.get_job jid).isSome
        · rfl
        · exact absurd hh h2
      rw [h2f] at h
      simp only [Bool.not_false, if_true, Bool.false_eq_true, if_false] at h
      have hpair : ({ s with jobs := s.jobs ++ [(jid, newJob now jid cid fm)] },
          newJob now jid cid fm) = (s2, j) := Except.ok.inj h
      have hj : newJob now jid cid fm = j := congrArg Prod.snd hpair
      have hs2 : ({ s with jobs := s.jobs ++ [(jid, newJob now jid cid fm)] } :
          JobStore) = s2 := congrArg Prod.fst hpair
      refine ⟨h1, ?_, hj.symm, ?_⟩
      · cases hh : s.get_job jid with
        | none => rfl
        | some x => rw [hh] at h2f; simp at h2f
      · rw [← hs2, hj]
  · have h1f : is_safe_job_id jid = false := by
      cases hh : is_safe_job_id jid
      · rfl
      · exact absurd hh h1
    rw [h1f] at h
    simp at h

/-! ## Invariant preservation machinery -/

theorem applyOps_preserve (P : JobStore → Prop) (Q : Op → Bool) (ops : List Op)
    (hstep : ∀ s op, Q op = true → P s → P (applyOp s op))
    (hops : ∀ op ∈ ops, Q op = true) (s : JobStore) (hs : P s) :
    P (applyOps s ops) := by
  induction ops generalizing s with
  | nil => exact hs
  | cons op tl ih =>
    have h1 : P (applyOp s op) := hstep s op (hops op (List.mem_cons_self op tl)) hs
    exact ih (fun o ho => hops o (List.mem_cons_of_mem op ho)) (applyOp s op) h1

/-- Every registry entry produced by one operation is either an old entry, a
freshly created PENDING job under a validated id, or an old entry rewritten
by one of the four field-update functions (same key). -/
theorem jobs_pointwise_step (R : String × Job → Prop)
    (hcreate : ∀ now jid cid fm, is_safe_job_id jid = true →
      R (jid, newJob now jid cid fm))
    (hstart : ∀ now (q : String × Job), R q → R (q.1, startUpdate now q.2))
    (hupdate : ∀ pr m (q : String × Job), R q → R (q.1, progressUpdate pr m q.2))
    (hcomplete : ∀ now r (q : String × Job), R q → R (q.1, completeUpdate now r q.2))
    (hfail : ∀ now e (q : String × Job), R q → R (q.1, failUpdate now e q.2))
    (s : JobStore) (op : Op) (hs : ∀ p ∈ s.jobs, R p) :
    ∀ p ∈ (applyOp s op).jobs, R p := by
  intro p hp
  cases op with
  | create now jid cid fm =>
    dsimp only [applyOp] at hp
    cases h : s.create_job now jid cid fm with
    | error e => rw [h] at hp; exact hs p hp
    | ok v =>
      obtain ⟨s2, j2⟩ := v
      rw [h] at hp
      obtain ⟨hsafe, -, hj, hs2⟩ := create_job_ok s now jid cid fm s2 j2 h
      rw [hs2] at hp
      rcases List.mem_append.mp hp with h1 | h1
      · exact hs p h1
      · have hpe : p = (jid, j2) := by simpa using h1
        rw [hpe, hj]
        exact hcreate now jid cid fm hsafe
  | start now jid =>
    dsimp only [applyOp, JobStore.start_job] at hp
    cases hg : s.get_job jid with
    | none => rw [hg] at hp; exact hs p hp
    | some j0 =>
      rw [hg] at hp
      obtain ⟨q, hq, hcase⟩ := mem_updateJob s.jobs jid (startUpdate now) p hp
      rcases hcase with rfl | ⟨-, rfl⟩
      · exact hs p hq
      · exact hstart now q (hs q hq)
  | update jid pr m =>
    dsimp only [applyOp, JobStore.update_progress] at hp
    cases hg : s.get_job jid with
    | none => rw [hg] at hp; exact hs p hp
    | some j0 =>
      rw [hg] at hp
      by_cases hr : (j0.status == JobStatus.running) = true
      · simp only [hr, if_true] at hp
        obtain ⟨q, hq, hcase⟩ := mem_updateJob s.jobs jid (progressUpdate pr m) p hp
        rcases hcase with rfl | ⟨-, rfl⟩
        · exact hs p hq
        · exact hupdate pr m q (hs q hq)
      · simp only [Bool.not_eq_true] at hr
        simp only [hr, Bool.false_eq_true, if_false] at hp
        exact hs p hp
  | complete now jid r =>
    dsimp only [applyOp, JobStore.complete_job] at hp
    cases hg : s.get_job jid with
    | none => rw [hg] at hp; exact hs p hp
    | some j0 =>
      rw [hg] at hp
      obtain ⟨q, hq, hcase⟩ := mem_updateJob s.jobs jid (completeUpdate now r) p hp
      rcases hcase with rfl | ⟨-, rfl⟩
      · exact hs p hq
      · exact hcomplete now r q (hs q hq)
  | fail now jid e =>
    dsimp only [applyOp, JobStore.fail_job] at hp
    cases hg : s.get_job jid with
    | none => rw [hg] at hp; exact hs p hp
    | some j0 =>
      rw [hg] at hp
      obtain ⟨q, hq, hcase⟩ := mem_updateJob s.jobs jid (failUpdate now e) p hp
      rcases hcase with rfl | ⟨-, rfl⟩
      · exact hs p hq
      · exact hfail now e q (hs q hq)
  | cleanup now =>
    dsimp only [applyOp, JobStore.cleanup_old_jobs] at hp
    exact hs p (List.mem_filter.mp hp).1
  | startScheduler =>
    dsimp only [applyOp, JobStore.start_cleanup_scheduler] at hp
    by_cases hc : s.cleanupThread = true
    · simp only [hc, if_true] at hp
      exact hs p hp
    · simp only [Bool.not_eq_true] at hc
      simp only [hc, Bool.false_eq_true, if_false] at hp
      exact hs p hp
  | stopScheduler =>
    dsimp only [applyOp, JobStore.stop_cleanup_scheduler] at hp
    exact hs p hp

/-! ## Effect and no-op lemmas for the single operations -/

theorem get_job_updateJob_store (s : JobStore) (jid : String) (f : Job → Job)
    (j : Job) (hg : s.get_job jid = some j) :
    lookupJob (updateJob s.jobs jid f) jid = some (f j) := by
  rw [lookupJob_updateJob_self]
  have hl : lookupJob s.jobs jid = some j := hg
  rw [hl]
  rfl

theorem update_progress_eq_of_none (s : JobStore) (jid : String) (pr : Int)
    (m : String) (h : s.get_job jid = none) :
    s.update_progress jid pr m = s := by
  unfold JobStore.update_progress
  rw [h]

theorem update_progress_eq_of_not_running (s : JobStore) (jid : String)
    (pr : Int) (m : String) (j : Job) (hg : s.get_job jid = some j)
    (hr : ¬j.status = JobStatus.running) :
    s.update_progress jid pr m = s := by
  unfold JobStore.update_progress
  rw [hg]
  have hcond : (j.status == JobStatus.running) = false :=
    beq_eq_false_iff_ne.mpr hr
  simp only [hcond, Bool.false_eq_true, if_false]

theorem update_progress_get_of_running (s : JobStore) (jid : String) (pr : Int)
    (m : String) (j : Job) (hg : s.get_job jid = some j)
    (hr : j.status = JobStatus.running) :
    (s.update_progress jid pr m).get_job jid = some (progressUpdate pr m j) := by
  unfold JobStore.update_progress
  rw [hg]
  have hcond : (j.status == JobStatus.running) = true := beq_iff_eq.mpr hr
  simp only [hcond, if_true]
  exact get_job_updateJob_store s jid (progressUpdate pr m) j hg

theorem complete_job_eq_of_none (s : JobStore) (now : Nat) (jid : String)
    (r : ResultData) (h : s.get_job jid = none) :
    s.complete_job now jid r = s := by
  unfold JobStore.complete_job
  rw [h]

theorem complete_job_get (s : JobStore) (now : Nat) (jid : String)
    (r : ResultData) (j : Job) (hg : s.get_job jid = some j) :
    (s.complete_job now jid r).get_job jid = some (completeUpdate now r j) := by
  unfold JobStore.complete_job
  rw [hg]
  exact get_job_updateJob_store s jid (completeUpdate now r) j hg

theorem fail_job_eq_of_none (s : JobStore) (now : Nat) (jid : String)
    (e : String) (h : s.get_job jid = none) :
    s.fail_job now jid e = s := by
  unfold JobStore.fail_job
  rw [h]

theorem fail_job_get (s : JobStore) (now : Nat) (jid : String) (e : String)
    (j : Job) (hg : s.get_job jid = some j) :
    (s.fail_job now jid e).get_job jid = some (failUpdate now e j) := by
  unfold JobStore.fail_job
  rw [hg]
  exact get_job_updateJob_store s jid (failUpdate now e) j hg

/-! ## Preserved invariants -/

/-- Every registry key once passed the id validation of `create_job`. -/
def safeKeys (s : JobStore) : Prop :=
  ∀ p ∈ s.jobs, is_safe_job_id p.1 = true

theorem safeKeys_applyOps (s : JobStore) (ops : List Op) (hs : safeKeys s) :
    safeKeys (applyOps s ops) := by
  refine applyOps_preserve safeKeys (fun _ => true) ops ?_ (fun _ _ => rfl) s hs
  intro s0 op _ h0
  refine jobs_pointwise_step (fun p => is_safe_job_id p.1 = true)
    ?_ ?_ ?_ ?_ ?_ s0 op h0
  · intro now jid cid fm hsafe
    exact hsafe
  · intro now q hq
    exact hq
  · intro pr m q hq
    exact hq
  · intro now r q hq
    exact hq
  · intro now e q hq
    exact hq

/-- Payload invariant: a COMPLETED job carries a result, a FAILED job
carries an error. -/
def resultErrorOk (j : Job) : Bool :=
  (!(j.status == JobStatus.completed) || j.result.isSome)
  && (!(j.status == JobStatus.failed) || j.error.isSome)

theorem resultErrorOk_applyOps (s : JobStore) (ops : List Op)
    (hs : ∀ p ∈ s.jobs, resultErrorOk p.2 = true) :
    ∀ p ∈ (applyOps s ops).jobs, resultErrorOk p.2 = true := by
  refine applyOps_preserve (fun s0 => ∀ p ∈ s0.jobs, resultErrorOk p.2 = true)
    (fun _ => true) ops ?_ (fun _ _ => rfl) s hs
  intro s0 op _ h0
  refine jobs_pointwise_step (fun p => resultErrorOk p.2 = true)
    ?_ ?_ ?_ ?_ ?_ s0 op h0
  · intro now jid cid fm _
    rfl
  · intro now q _
    rfl
  · intro pr m q hq
    exact hq
  · intro now r q _
    rfl
  · intro now e q _
    rfl

/-- No operation ever resets the shutdown flag: the module never calls
`Event.clear()`. -/
theorem applyOp_shutdown (s : JobStore) (op : Op) (h : s.shutdown = true) :
    (applyOp s op).shutdown = true := by
  cases op with
  | create now jid cid fm =>
    dsimp only [applyOp]
    cases hc : s.create_job now jid cid fm with
    | error e => exact h
    | ok v =>
      obtain ⟨s2, j2⟩ := v
      obtain ⟨-, -, -, hs2⟩ := create_job_ok s now jid cid fm s2 j2 hc
      subst hs2
      exact h
  | start now jid =>
    dsimp only [applyOp, JobStore.start_job]
    cases s.get_job jid <;> exact h
  | update jid pr m =>
    dsimp only [applyOp, JobStore.update_progress]
    cases s.get_job jid with
    | none => exact h
    | some j0 =>
      dsimp only
      split <;> exact h
  | complete now jid r =>
    dsimp only [applyOp, JobStore.complete_job]
    cases s.get_job jid <;> exact h
  | fail now jid e =>
    dsimp only [applyOp, JobStore.fail_job]
    cases s.get_job jid <;> exact h
  | cleanup now => exact h
  | startScheduler =>
    dsimp only [applyOp, JobStore.start_cleanup_scheduler]
    split <;> exact h
  | stopScheduler => rfl

theorem applyOps_shutdown (s : JobStore) (ops : List Op) (h : s.shutdown = true) :
    (applyOps s ops).shutdown = true :=
  applyOps_preserve (fun s0 => s0.shutdown = true) (fun _ => true) ops
    (fun s0 op _ h0 => applyOp_shutdown s0 op h0) (fun _ _ => rfl) s h

/-! ## Terminal-status stability -/

/-- COMPLETED and FAILED are the terminal statuses. -/
def isTerminal : JobStatus → Bool
  | .completed => true
  | .failed => true
  | _ => false

/-- Operations that cannot overwrite the status of job `jid`: anything not
targeting `jid` plus `update_progress` (status-guarded) and cleanup and the
scheduler calls.  `start_job`, `complete_job`, `fail_job` and a re-`create`
of the same id are excluded. -/
def opAllowedAfterTerminal (jid : String) : Op → Bool
  | .create _ j _ _ => !(j == jid)
  | .start _ j => !(j == jid)
  | .complete _ j _ => !(j == jid)
  | .fail _ j _ => !(j == jid)
  | .update _ _ _ => true
  | .cleanup _ => true
  | .startScheduler => true
  | .stopScheduler => true

/-- All registry entries stored under key `jid` have status `st`. -/
def statusPinned (jid : String) (st : JobStatus) (s : JobStore) : Prop :=
  ∀ p ∈ s.jobs, p.1 = jid → p.2.status = st

theorem statusPinned_step (jid : String) (st : JobStatus)
    (hterm : isTerminal st = true) (s : JobStore) (op : Op)
    (hop : opAllowedAfterTerminal jid op = true)
    (hs : statusPinned jid st s) : statusPinned jid st (applyOp s op) := by
  have hkey : ∀ (k : String), k ≠ jid → ∀ (p : String × Job)
      (f : Job → Job), p ∈ updateJob s.jobs k f → p.1 = jid → p.2.status = st := by
    intro k hk p f hp hpj
    obtain ⟨q, hq, hcase⟩ := mem_updateJob s.jobs k f p hp
    rcases hcase with rfl | ⟨hqk, rfl⟩
    · exact hs p hq hpj
    · have hq1 : q.1 = jid := hpj
      have hkj : k = jid := by rw [← hqk]; exact hq1
      exact absurd hkj hk
  have neOf : ∀ (k : String), (!(k == jid)) = true → k ≠ jid := by
    intro k hk0 hkj
    rw [hkj] at hk0
    simp at hk0
  cases op with
  | create now k cid fm =>
    have hk : k ≠ jid := neOf k hop
    intro p hp hpj
    dsimp only [applyOp] at hp
    cases hc : s.create_job now k cid fm with
    | error e => rw [hc] at hp; exact hs p hp hpj
    | ok v =>
      obtain ⟨s2, j2⟩ := v
      rw [hc] at hp
      obtain ⟨-, -, -, hs2⟩ := create_job_ok s now k cid fm s2 j2 hc
      rw [hs2] at hp
      rcases List.mem_append.mp hp with h1 | h1
      · exact hs p h1 hpj
      · have hpe : p = (k, j2) := by simpa using h1
        rw [hpe] at hpj
        exact absurd hpj hk
  | start now k =>
    have hk : k ≠ jid := neOf k hop
    intro p hp hpj
    dsimp only [applyOp, JobStore.start_job] at hp
    cases hg : s.get_job k with
    | none => rw [hg] at hp; exact hs p hp hpj
    | some j0 =>
      rw [hg] at hp
      exact hkey k hk p (startUpdate now) hp hpj
  | update k pr m =>
    intro p hp hpj
    dsimp only [applyOp, JobStore.update_progress] at hp
    cases hg : s.get_job k with
    | none => rw [hg] at hp; exact hs p hp hpj
    | some j0 =>
      rw [hg] at hp
      by_cases hr : (j0.status == JobStatus.running) = true
      · simp only [hr, if_true] at hp
        obtain ⟨q, hq, hcase⟩ := mem_updateJob s.jobs k (progressUpdate pr m) p hp
        rcases hcase with rfl | ⟨hqk, rfl⟩
        · exact hs p hq hpj
        · -- the entry is rewritten, so the guard found the first entry with
          -- key `k`; but `p.1 = jid` forces `k = jid`, whose first entry has
          -- the terminal status `st`, never RUNNING.
          obtain ⟨q0, hq0, hq01, hq02⟩ := get_job_mem s k j0 hg
          have hkj : k = jid := hqk ▸ hpj
          have hj0st : j0.status = st := hq02 ▸ hs q0 hq0 (hq01.trans hkj)
          have hrun : j0.status = JobStatus.running := by simpa using hr
          rw [hj0st] at hrun
          rw [hrun] at hterm
          simp [isTerminal] at hterm
      · simp only [Bool.not_eq_true] at hr
        simp only [hr, Bool.false_eq_true, if_false] at hp
        exact hs p hp hpj
  | complete now k r =>
    have hk : k ≠ jid := neOf k hop
    intro p hp hpj
    dsimp only [applyOp, JobStore.complete_job] at hp
    cases hg : s.get_job k with
    | none => rw [hg] at hp; exact hs p hp hpj
    | some j0 =>
      rw [hg] at hp
      exact hkey k hk p (completeUpdate now r) hp hpj
  | fail now k e =>
    have hk : k ≠ jid := neOf k hop
    intro p hp hpj
    dsimp only [applyOp, JobStore.fail_job] at hp
    cases hg : s.get_job k with
    | none => rw [hg] at hp; exact hs p hp hpj
    | some j0 =>
      rw [hg] at hp
      exact hkey k hk p (failUpdate now e) hp hpj
  | cleanup now =>
    intro p hp hpj
    dsimp only [applyOp, JobStore.cleanup_old_jobs] at hp
    exact hs p (List.mem_filter.mp hp).1 hpj
  | startScheduler =>
    intro p hp hpj
    dsimp only [applyOp, JobStore.start_cleanup_scheduler] at hp
    by_cases hc : s.cleanupThread = true
    · simp only [hc, if_true] at hp
      exact hs p hp hpj
    · simp only [Bool.not_eq_true] at hc
      simp only [hc, Bool.false_eq_true, if_false] at hp
      exact hs p hp hpj
  | stopScheduler =>
    intro p hp hpj
    dsimp only [applyOp, JobStore.stop_cleanup_scheduler] at hp
    exact hs p hp hpj

/-! ## The request-handler admission check of `routes.py` -/

/-- The settings the handler consults (`core/config.py`). -/
structure Settings where
  max_concurrent_jobs : Nat := 10
deriving DecidableEq, Repr

/-- `get_settings()` defaults. -/
def defaultSettings : Settings := {}

/-- HTTP-level failures of `create_segment_job` in `routes.py`. -/
inductive ApiError where
  | serverBusy    -- 503
  | invalidCaseId -- 400
  | internalError -- 500
deriving DecidableEq, Repr

/-- The admission logic of `POST /api/segment` (`routes.py`): reject with 503
while `get_active_job_count() >= max_concurrent_jobs`, then validate the
case id, then create the job (the fresh `uuid4().hex` is a parameter). -/
def create_segment_job (settings : Settings) (validCases : List String)
    (s : JobStore) (case_id : String) (fast_mode : Bool)
    (fresh_job_id : String) (now : Nat) : Except ApiError (JobStore × String) :=
  if s.get_active_job_count ≥ settings.max_concurrent_jobs then
    .error .serverBusy
  else if !(validCases.contains case_id) then
    .error .invalidCaseId
  else
    match s.create_job now fresh_job_id case_id fast_mode with
    | .ok (s2, job) => .ok (s2, job.id)
    | .error _ => .error .internalError

/-- The store after the handler ran (errors leave the registry unchanged). -/
def segment_request_state (settings : Settings) (validCases : List String)
    (s : JobStore) (case_id : String) (fast_mode : Bool)
    (fresh_job_id : String) (now : Nat) : JobStore :=
  match create_segment_job settings validCases s case_id fast_mode
      fresh_job_id now with
  | .ok (s2, _) => s2
  | .error _ => s

theorem length_filter_not_add (l : List (String × Job))
    (p : String × Job → Bool) :
    (l.filter (fun a => !p a)).length + (l.filter p).length = l.length := by
  induction l with
  | nil => rfl
  | cons a tl ih =>
    by_cases h : p a = true
    · simp only [List.filter_cons, h, Bool.not_true, Bool.false_eq_true,
        if_false, if_true, List.length_cons]
      omega
    · simp only [Bool.not_eq_true] at h
      simp only [List.filter_cons, h, Bool.not_false, Bool.false_eq_true,
        if_false, if_true, List.length_cons]
      omega

/-- The final lookup either misses or yields status `st`. -/
def jobAbsentOrStatus (o : Option Job) (st : JobStatus) : Bool :=
  match o with
  | none => true
  | some j => j.status == st

/-! ## Claims -/

/-- **C1, counterexample.**  The claim says that once a job is COMPLETED or
FAILED no later store operation changes its status.  The code guards only
`update_progress`: calling `start_job` on an already COMPLETED job sets its
status back to RUNNING. -/
theorem start_job_resurrects_completed_job :
    (((applyOps emptyStore [Op.create 0 "a" "caseA" true,
        Op.complete 1 "a" "res"]).get_job "a").map Job.status
      = some JobStatus.completed)
    ∧ (((applyOps emptyStore [Op.create 0 "a" "caseA" true,
        Op.complete 1 "a" "res", Op.start 2 "a"]).get_job "a").map Job.status
      = some JobStatus.running) := by
  decide

/-- **C1 (amended).**  Once every registry entry under `jid` has terminal
status `st`, any sequence of operations that contains no `start_job`,
`complete_job`, `fail_job` or `create_job` targeting `jid` leaves the job
either absent (cleanup may remove it) or still in status `st`; in
particular `update_progress` and `cleanup_old_jobs` never change a terminal
status. -/
theorem terminal_status_stable_without_restart (s : JobStore) (jid : String)
    (st : JobStatus) (ops : List Op) (hterm : isTerminal st = true)
    (hpin : ∀ p ∈ s.jobs, p.1 = jid → p.2.status = st)
    (hallowed : ∀ op ∈ ops, opAllowedAfterTerminal jid op = true) :
    jobAbsentOrStatus ((applyOps s ops).get_job jid) st = true := by
  have hP : statusPinned jid st (applyOps s ops) :=
    applyOps_preserve (statusPinned jid st) (opAllowedAfterTerminal jid) ops
      (fun s0 op hq h0 => statusPinned_step jid st hterm s0 op hq h0)
      hallowed s hpin
  cases hg : (applyOps s ops).get_job jid with
  | none => rfl
  | some j =>
    obtain ⟨q, hq, hq1, hq2⟩ := get_job_mem (applyOps s ops) jid j hg
    have hst : j.status = st := hq2 ▸ hP q hq hq1
    exact beq_iff_eq.mpr hst

/-- Instantiation of the amended C1 at a concrete completed job and a
concrete allowed operation sequence. -/
theorem terminal_status_stable_without_restart_witness :
    isTerminal JobStatus.completed = true
    ∧ (∀ p ∈ (applyOps emptyStore [Op.create 0 "a" "caseA" true,
        Op.complete 1 "a" "res"]).jobs,
        p.1 = "a" → p.2.status = JobStatus.completed)
    ∧ (∀ op ∈ [Op.update "a" 50 "late", Op.cleanup 2,
        Op.create 3 "b" "caseB" false, Op.start 4 "b"],
        opAllowedAfterTerminal "a" op = true)
    ∧ jobAbsentOrStatus ((applyOps
        (applyOps emptyStore [Op.create 0 "a" "caseA" true,
          Op.complete 1 "a" "res"])
        [Op.update "a" 50 "late", Op.cleanup 2,
          Op.create 3 "b" "caseB" false, Op.start 4 "b"]).get_job "a")
        JobStatus.completed = true :=
  ⟨by decide, by decide, by decide,
   terminal_status_stable_without_restart _ "a" JobStatus.completed _
     (by decide) (by decide) (by decide)⟩

/-- **C2, counterexample.**  The claim says `result` is non-null iff the
status is COMPLETED.  `fail_job` does not clear a previously stored
result, so after `complete_job` then `fail_job` the job is FAILED with a
non-null `result`. -/
theorem fail_after_complete_keeps_result :
    (((applyOps emptyStore [Op.create 0 "a" "caseA" true,
        Op.complete 1 "a" "res", Op.fail 2 "a" "boom"]).get_job "a").map
        Job.status = some JobStatus.failed)
    ∧ (((applyOps emptyStore [Op.create 0 "a" "caseA" true,
        Op.complete 1 "a" "res", Op.fail 2 "a" "boom"]).get_job "a").map
        Job.result = some (some "res")) := by
  decide

/-- **C2 (amended).**  In any store whose entries satisfy the payload
invariant (so in any store reachable from the empty one), after any
operation sequence a COMPLETED job has a non-null `result` and a FAILED
job has a non-null `error`; the converses are refuted separately. -/
theorem completed_has_result_failed_has_error (s : JobStore) (ops : List Op)
    (jid : String) (j : Job)
    (hs : ∀ p ∈ s.jobs, resultErrorOk p.2 = true)
    (hg : (applyOps s ops).get_job jid = some j) :
    (j.status = JobStatus.completed → j.result.isSome = true)
    ∧ (j.status = JobStatus.failed → j.error.isSome = true) := by
  have hall := resultErrorOk_applyOps s ops hs
  obtain ⟨q, hq, -, hq2⟩ := get_job_mem (applyOps s ops) jid j hg
  have hok : resultErrorOk j = true := hq2 ▸ hall q hq
  unfold resultErrorOk at hok
  constructor
  · intro hc
    rw [hc] at hok
    simpa using hok
  · intro hf
    rw [hf] at hok
    simpa using hok

/-- The completed job produced by a create/start/complete run. -/
def c2WitnessJob : Job :=
  { id := "a", status := JobStatus.completed, caseId := "caseA",
    fastMode := true, createdAt := 0, startedAt := some 1,
    completedAt := some 2, progress := 100,
    progressMessage := "Segmentation complete", result := some "res",
    error := none }

/-- Instantiation of the amended C2 on a concrete completed job. -/
theorem completed_has_result_failed_has_error_witness :
    (∀ p ∈ emptyStore.jobs, resultErrorOk p.2 = true)
    ∧ ((applyOps emptyStore [Op.create 0 "a" "caseA" true, Op.start 1 "a",
        Op.complete 2 "a" "res"]).get_job "a" = some c2WitnessJob)
    ∧ ((c2WitnessJob.status = JobStatus.completed →
          c2WitnessJob.result.isSome = true)
       ∧ (c2WitnessJob.status = JobStatus.failed →
          c2WitnessJob.error.isSome = true)) :=
  ⟨by decide, by decide,
   completed_has_result_failed_has_error emptyStore
     [Op.create 0 "a" "caseA" true, Op.start 1 "a", Op.complete 2 "a" "res"]
     "a" c2WitnessJob (by decide) (by decide)⟩

/-- **C3 (code bug).**  The claim (and the function's own docstring) says
`create_job` raises a validation error exactly when the id is not one or
more characters of `[a-zA-Z0-9_-]`.  But Python's `re` anchor `$` also
matches just before a trailing newline, so `_is_safe_job_id("abc\n")` is
`True` and `create_job` inserts a job whose id contains a newline instead
of raising. -/
theorem create_job_accepts_trailing_newline_id :
    is_safe_job_id "abc\n" = true
    ∧ (((applyOps emptyStore [Op.create 0 "abc\n" "caseA" true]).get_job
        "abc\n").map Job.status = some JobStatus.pending) := by
  decide

/-- **C4.**  `update_progress` is a no-op when the job is unknown or not
RUNNING; on a RUNNING job it stores the progress clamped into `[0, 100]`
and overwrites the message. -/
theorem update_progress_spec (s : JobStore) (jid : String) (pr : Int)
    (m : String) :
    (s.get_job jid = none → s.update_progress jid pr m = s)
    ∧ (∀ j, s.get_job jid = some j → j.status ≠ JobStatus.running →
        s.update_progress jid pr m = s)
    ∧ (∀ j, s.get_job jid = some j → j.status = JobStatus.running →
        (s.update_progress jid pr m).get_job jid = some (progressUpdate pr m j)
        ∧ (progressUpdate pr m j).progress = min (max pr 0) 100
        ∧ (progressUpdate pr m j).progressMessage = m
        ∧ 0 ≤ (progressUpdate pr m j).progress
        ∧ (progressUpdate pr m j).progress ≤ 100) := by
  refine ⟨update_progress_eq_of_none s jid pr m,
    fun j hg hr => update_progress_eq_of_not_running s jid pr m j hg hr,
    fun j hg hr => ⟨update_progress_get_of_running s jid pr m j hg hr,
      rfl, rfl, ?_, ?_⟩⟩
  · show (0 : Int) ≤ min (max pr 0) 100
    omega
  · show min (max pr 0) 100 ≤ (100 : Int)
    omega

/-- A store holding the single RUNNING job `"a"`. -/
def c4WitnessStore : JobStore :=
  applyOps emptyStore [Op.create 0 "a" "caseA" true, Op.start 1 "a"]

/-- The RUNNING job `"a"` of `c4WitnessStore`. -/
def c4WitnessJob : Job :=
  { id := "a", status := JobStatus.running, caseId := "caseA",
    fastMode := true, createdAt := 0, startedAt := some 1, progress := 5,
    progressMessage := "Starting inference..." }

/-- Instantiation of C4: progress 150 is stored as 100 and progress -10 as
0 on a concrete RUNNING job. -/
theorem update_progress_spec_witness :
    (c4WitnessStore.get_job "a" = some c4WitnessJob
      ∧ c4WitnessJob.status = JobStatus.running)
    ∧ ((c4WitnessStore.update_progress "a" 150 "x").get_job "a"
        = some (progressUpdate 150 "x" c4WitnessJob)
       ∧ (progressUpdate 150 "x" c4WitnessJob).progress = 100)
    ∧ ((c4WitnessStore.update_progress "a" (-10) "y").get_job "a"
        = some (progressUpdate (-10) "y" c4WitnessJob)
       ∧ (progressUpdate (-10) "y" c4WitnessJob).progress = 0) :=
  ⟨⟨by decide, by decide⟩,
   ⟨((update_progress_spec c4WitnessStore "a" 150 "x").2.2 c4WitnessJob
       (by decide) (by decide)).1, by decide⟩,
   ⟨((update_progress_spec c4WitnessStore "a" (-10) "y").2.2 c4WitnessJob
       (by decide) (by decide)).1, by decide⟩⟩

/-- **C5.**  `complete_job` is a no-op on an unknown id; on an existing job
it back-fills `started_at`, sets COMPLETED / `completed_at = now` /
progress 100 / the completion message, stores the result, and a job that
was never started ends up with `elapsed_seconds = 0` (finite and
non-negative). -/
theorem complete_job_spec (s : JobStore) (now : Nat) (jid : String)
    (r : ResultData) :
    (s.get_job jid = none → s.complete_job now jid r = s)
    ∧ (∀ j, s.get_job jid = some j →
        (s.complete_job now jid r).get_job jid = some (completeUpdate now r j)
        ∧ (completeUpdate now r j).status = JobStatus.completed
        ∧ (completeUpdate now r j).result = some r
        ∧ (completeUpdate now r j).completedAt = some now
        ∧ (completeUpdate now r j).progress = 100
        ∧ (completeUpdate now r j).progressMessage = "Segmentation complete")
    ∧ (∀ j, s.get_job jid = some j → j.startedAt = none →
        (completeUpdate now r j).startedAt = some now
        ∧ ∀ t, (completeUpdate now r j).elapsed_seconds t = 0
          ∧ 0 ≤ (completeUpdate now r j).elapsed_seconds t) := by
  refine ⟨complete_job_eq_of_none s now jid r,
    fun j hg => ⟨complete_job_get s now jid r j hg, rfl, rfl, rfl, rfl, rfl⟩,
    fun j hg hst => ⟨?_, ?_⟩⟩
  · show some (j.startedAt.getD now) = some now
    rw [hst]
    rfl
  · intro t
    have he : (completeUpdate now r j).elapsed_seconds t = 0 := by
      simp [Job.elapsed_seconds, completeUpdate, hst]
    exact ⟨he, le_of_eq he.symm⟩

/-- A store holding the single PENDING (never started) job `"a"`. -/
def c5WitnessStore : JobStore := applyOps emptyStore [Op.create 0 "a" "caseA" true]

/-- Instantiation of C5 on a job whose `started_at` was never set. -/
theorem complete_job_spec_witness :
    (c5WitnessStore.get_job "a" = some (newJob 0 "a" "caseA" true)
      ∧ (newJob 0 "a" "caseA" true).startedAt = none)
    ∧ ((c5WitnessStore.complete_job 7 "a" "res").get_job "a"
        = some (completeUpdate 7 "res" (newJob 0 "a" "caseA" true)))
    ∧ (completeUpdate 7 "res" (newJob 0 "a" "caseA" true)).elapsed_seconds 99
        = 0 :=
  ⟨⟨by decide, by decide⟩,
   ((complete_job_spec c5WitnessStore 7 "a" "res").2.1
      (newJob 0 "a" "caseA" true) (by decide)).1,
   (((complete_job_spec c5WitnessStore 7 "a" "res").2.2
      (newJob 0 "a" "caseA" true) (by decide) (by decide)).2 99).1⟩

/-- **C6.**  `fail_job` is a no-op on an unknown id; on an existing job it
back-fills `started_at` when unset, sets FAILED / `completed_at = now`,
stores the error verbatim, and leaves the numeric `progress` field exactly
at its prior value. -/
theorem fail_job_spec (s : JobStore) (now : Nat) (jid : String) (e : String) :
    (s.get_job jid = none → s.fail_job now jid e = s)
    ∧ (∀ j, s.get_job jid = some j →
        (s.fail_job now jid e).get_job jid = some (failUpdate now e j)
        ∧ (failUpdate now e j).status = JobStatus.failed
        ∧ (failUpdate now e j).completedAt = some now
        ∧ (failUpdate now e j).error = some e
        ∧ (failUpdate now e j).progress = j.progress
        ∧ (j.startedAt = none → (failUpdate now e j).startedAt = some now)
        ∧ (∀ t0, j.startedAt = some t0 →
            (failUpdate now e j).startedAt = some t0)) := by
  refine ⟨fail_job_eq_of_none s now jid e,
    fun j hg => ⟨fail_job_get s now jid e j hg, rfl, rfl, rfl, rfl,
      ?_, ?_⟩⟩
  · intro hst
    show some (j.startedAt.getD now) = some now
    rw [hst]
    rfl
  · intro t0 hst
    show some (j.startedAt.getD now) = some t0
    rw [hst]
    rfl

/-- A store holding the RUNNING job `"a"` with progress 42. -/
def c6WitnessStore : JobStore :=
  applyOps emptyStore [Op.create 0 "a" "caseA" true, Op.start 1 "a",
    Op.update "a" 42 "working"]

/-- The RUNNING job `"a"` of `c6WitnessStore`. -/
def c6WitnessJob : Job :=
  { id := "a", status := JobStatus.running, caseId := "caseA",
    fastMode := true, createdAt := 0, startedAt := some 1, progress := 42,
    progressMessage := "working" }

/-- Instantiation of C6: failing the job keeps `progress = 42`. -/
theorem fail_job_spec_witness :
    (c6WitnessStore.get_job "a" = some c6WitnessJob
      ∧ c6WitnessJob.progress = 42)
    ∧ ((c6WitnessStore.fail_job 9 "a" "boom").get_job "a"
        = some (failUpdate 9 "boom" c6WitnessJob))
    ∧ (failUpdate 9 "boom" c6WitnessJob).progress = 42
    ∧ (failUpdate 9 "boom" c6WitnessJob).error = some "boom" :=
  ⟨⟨by decide, by decide⟩,
   ((fail_job_spec c6WitnessStore 9 "a" "boom").2 c6WitnessJob (by decide)).1,
   by decide, by decide⟩

/-- **C7.**  `cleanup_old_jobs` removes exactly the jobs whose
`completed_at` is set with `now - completed_at > TTL`, returns the number
of removed registry entries, never removes a job without `completed_at`,
and with TTL = 0 removes any completed job on the next (later) call. -/
theorem cleanup_old_jobs_spec (s : JobStore) (now : Nat) :
    (∀ j : Job, expiredAt s.ttl now j = true ↔
        ∃ c, j.completedAt = some c ∧ (c : Int) + (s.ttl : Int) < (now : Int))
    ∧ (∀ p : String × Job, p ∈ ((s.cleanup_old_jobs now).1).jobs ↔
        p ∈ s.jobs ∧ expiredAt s.ttl now p.2 = false)
    ∧ ((s.cleanup_old_jobs now).1).jobs.length + (s.cleanup_old_jobs now).2
        = s.jobs.length
    ∧ (∀ p ∈ s.jobs, p.2.completedAt = none →
        p ∈ ((s.cleanup_old_jobs now).1).jobs)
    ∧ (s.ttl = 0 → ∀ p ∈ s.jobs, ∀ c, p.2.completedAt = some c → c < now →
        p ∉ ((s.cleanup_old_jobs now).1).jobs) := by
  have hmem : ∀ p : String × Job, p ∈ ((s.cleanup_old_jobs now).1).jobs ↔
      p ∈ s.jobs ∧ expiredAt s.ttl now p.2 = false := by
    intro p
    show p ∈ s.jobs.filter (fun q => !expiredAt s.ttl now q.2) ↔ _
    rw [List.mem_filter]
    simp
  refine ⟨?_, hmem, ?_, ?_, ?_⟩
  · intro j
    unfold expiredAt
    cases hc : j.completedAt with
    | none => simp
    | some c =>
      simp only [decide_eq_true_eq]
      constructor
      · intro h
        exact ⟨c, rfl, by omega⟩
      · rintro ⟨c2, hc2, h⟩
        have hce : c = c2 := by
          injection hc2
        rw [hce]
        omega
  · exact length_filter_not_add s.jobs (fun q => expiredAt s.ttl now q.2)
  · intro p hp hnone
    refine (hmem p).mpr ⟨hp, ?_⟩
    simp [expiredAt, hnone]
  · intro httl p hp c hc hlt hmem2
    have h2 := (hmem p).mp hmem2
    have hexp : expiredAt s.ttl now p.2 = true := by
      simp only [expiredAt, hc, httl, decide_eq_true_eq]
      omega
    rw [h2.2] at hexp
    exact absurd hexp (by decide)

/-- A COMPLETED job finished at time 1. -/
def c7JobA : Job :=
  { id := "a", status := JobStatus.completed, caseId := "caseA",
    fastMode := true, createdAt := 0, startedAt := some 0,
    completedAt := some 1, progress := 100,
    progressMessage := "Segmentation complete", result := some "res" }

/-- A RUNNING job with no `completed_at`. -/
def c7JobB : Job :=
  { id := "b", status := JobStatus.running, caseId := "caseB",
    fastMode := false, createdAt := 0, startedAt := some 0, progress := 5,
    progressMessage := "Starting inference..." }

/-- A TTL = 0 store holding one completed and one running job. -/
def c7Store : JobStore :=
  { jobs := [("a", c7JobA), ("b", c7JobB)], ttl := 0 }

/-- Instantiation of C7: with TTL = 0 the next call (at a later time)
removes the completed job and keeps the running one, returning count 1. -/
theorem cleanup_old_jobs_spec_witness :
    (("b", c7JobB) ∈ c7Store.jobs ∧ c7JobB.completedAt = none
      ∧ ("b", c7JobB) ∈ ((c7Store.cleanup_old_jobs 5).1).jobs)
    ∧ (c7Store.ttl = 0 ∧ ("a", c7JobA) ∈ c7Store.jobs
      ∧ c7JobA.completedAt = some 1 ∧ 1 < 5
      ∧ ("a", c7JobA) ∉ ((c7Store.cleanup_old_jobs 5).1).jobs)
    ∧ ((c7Store.cleanup_old_jobs 5).1).jobs.length
        + (c7Store.cleanup_old_jobs 5).2 = c7Store.jobs.length :=
  ⟨⟨by decide, by decide,
     (cleanup_old_jobs_spec c7Store 5).2.2.2.1 ("b", c7JobB) (by decide)
       (by decide)⟩,
   ⟨by decide, by decide, by decide, by decide,
     (cleanup_old_jobs_spec c7Store 5).2.2.2.2 (by decide) ("a", c7JobA)
       (by decide) 1 (by decide) (by decide)⟩,
   (cleanup_old_jobs_spec c7Store 5).2.2.1⟩

/-- **C8.**  When the active-job count has reached `max_concurrent_jobs`
(default 10), the segment request handler answers 503 "server busy" and
the registry is left unchanged. -/
theorem busy_store_rejects_segment_request (settings : Settings)
    (validCases : List String) (s : JobStore) (case_id : String)
    (fast_mode : Bool) (fresh_job_id : String) (now : Nat)
    (hbusy : s.get_active_job_count ≥ settings.max_concurrent_jobs) :
    create_segment_job settings validCases s case_id fast_mode fresh_job_id now
      = .error .serverBusy
    ∧ segment_request_state settings validCases s case_id fast_mode
        fresh_job_id now = s
    ∧ defaultSettings.max_concurrent_jobs = 10 := by
  have h1 : create_segment_job settings validCases s case_id fast_mode
      fresh_job_id now = .error .serverBusy := by
    unfold create_segment_job
    rw [if_pos hbusy]
  refine ⟨h1, ?_, rfl⟩
  unfold segment_request_state
  rw [h1]

/-- A store with exactly one PENDING job, hence one active job. -/
def c8Store : JobStore := applyOps emptyStore [Op.create 0 "a" "caseA" true]

/-- Instantiation of C8: with `max_concurrent_jobs = 1` and one PENDING job
present, a second request is rejected with 503 and creates nothing. -/
theorem busy_store_rejects_segment_request_witness :
    c8Store.get_active_job_count ≥ (Settings.mk 1).max_concurrent_jobs
    ∧ create_segment_job (Settings.mk 1) ["caseA"] c8Store "caseA" true "b" 1
        = .error .serverBusy
    ∧ segment_request_state (Settings.mk 1) ["caseA"] c8Store "caseA" true
        "b" 1 = c8Store :=
  ⟨by decide,
   (busy_store_rejects_segment_request (Settings.mk 1) ["caseA"] c8Store
      "caseA" true "b" 1 (by decide)).1,
   (busy_store_rejects_segment_request (Settings.mk 1) ["caseA"] c8Store
      "caseA" true "b" 1 (by decide)).2.1⟩

/-- **C9.**  `create_job` with the empty string always raises the
validation error (the pattern needs at least one character), and the empty
string is never a registry key in any store reachable from the empty
store. -/
theorem empty_job_id_never_created :
    (∀ (s : JobStore) (now : Nat) (cid : String) (fm : Bool),
        s.create_job now "" cid fm = .error .invalidJobId)
    ∧ (∀ ops : List Op, (applyOps emptyStore ops).get_job "" = none) := by
  constructor
  · intro s now cid fm
    unfold JobStore.create_job
    have h : is_safe_job_id "" = false := by decide
    rw [h]
    rfl
  · intro ops
    have hsafe : safeKeys (applyOps emptyStore ops) :=
      safeKeys_applyOps emptyStore ops
        (fun p hp => absurd hp (List.not_mem_nil p))
    cases hg : (applyOps emptyStore ops).get_job "" with
    | none => rfl
    | some j =>
      obtain ⟨q, hq, hq1, -⟩ := get_job_mem _ "" j hg
      have hkey := hsafe q hq
      rw [hq1] at hkey
      exact absurd hkey (by decide)

/-- **C10.**  `stop_cleanup_scheduler` sets the shutdown flag, no
operation (including a later `start_cleanup_scheduler`) ever clears it,
and a cleanup loop observing a set flag performs zero sweeps: the periodic
cleanup cannot be restarted on the same store. -/
theorem shutdown_flag_permanent_after_stop (s : JobStore) (ops : List Op)
    (n : Nat) :
    (applyOps (s.stop_cleanup_scheduler) ops).shutdown = true
    ∧ cleanupLoopSweeps ((applyOps (s.stop_cleanup_scheduler) ops).shutdown) n
        = 0 := by
  have h1 : (applyOps (s.stop_cleanup_scheduler) ops).shutdown = true :=
    applyOps_shutdown (s.stop_cleanup_scheduler) ops rfl
  refine ⟨h1, ?_⟩
  rw [h1]
  cases n with
  | zero => rfl
  | succ t => rfl

end StrokeDemo
